import Mathlib

/-!
Verification of the Monte-Carlo measurement post-processing pipeline
(`measurement.py`): block-bootstrap estimation of observables with derived
heat capacity / susceptibility, per-run aggregation into a temperature table,
and the autocorrelation diagnostic.

Modelling conventions:
* A pandas `DataFrame` is a list of column names (`keys`) together with a list
  of rows, each row a list of rational values aligned with `keys`.
  Exact rationals stand in for floats.
* Python exceptions are an explicit error type: pandas `sample` raising
  `ValueError` when the requested size exceeds the population is
  `PyError.valueError` (the spec's `InsufficientDataError`); a failed
  `assert` is `PyError.assertionError` (the spec's `InvalidLagError`);
  a missing column / out-of-range label lookup is `PyError.keyError`.
* The random source is passed explicitly: one draw of `df.sample(n)`
  (without replacement) is a list of distinct row indices; `ValidDraw`
  states exactly what pandas guarantees about such a draw.
* File reading (`pd.read_csv`) and metadata parsing are the external
  SeriesLoader / file-discovery collaborators: a `Run` carries the already
  loaded frame together with its metadata `K` and `T` entries.
-/

namespace Measurement

inductive PyError where
  | valueError
  | keyError
  | assertionError
deriving DecidableEq, Repr

structure DataFrame where
  keys : List String
  rows : List (List ℚ)
deriving DecidableEq, Repr

/-- A Python dict with string keys and float values (insertion ordered). -/
abbrev Dict := List (String × ℚ)

def dictGet (d : Dict) (k : String) : Option ℚ :=
  (d.find? (fun p => p.1 == k)).map (fun p => p.2)

/-- `k in d` for a Python dict. -/
def dictHas (d : Dict) (k : String) : Bool :=
  (d.find? (fun p => p.1 == k)).isSome

/-- `d[k] = v` for a Python dict: update in place if present, else append. -/
def dictSet (d : Dict) (k : String) (v : ℚ) : Dict :=
  if d.any (fun p => p.1 == k) then
    d.map (fun p => if p.1 == k then (k, v) else p)
  else d ++ [(k, v)]

def listMean (l : List ℚ) : ℚ := l.sum / l.length

/-- `df.mean()` as a dict: per-column arithmetic mean over all rows. -/
def dfMean (df : DataFrame) : Dict :=
  (List.range df.keys.length).map
    (fun j => (df.keys.getD j "", listMean (df.rows.map (fun r => r.getD j 0))))

/-- `df.sample(n)` (without replacement): pandas raises `ValueError` when
`n` exceeds the number of rows; otherwise the frame of the drawn rows.
The randomly drawn index list is an explicit argument. -/
def pdSample (df : DataFrame) (n : ℕ) (draw : List ℕ) : Except PyError DataFrame :=
  if n ≤ df.rows.length then
    .ok ⟨df.keys, draw.map (fun i => df.rows.getD i [])⟩
  else
    .error .valueError

/-- What pandas guarantees about a without-replacement draw of size `n`:
`n` distinct row indices of `df`. -/
def ValidDraw (df : DataFrame) (n : ℕ) (draw : List ℕ) : Prop :=
  draw.Nodup ∧ draw.length = n ∧ ∀ i ∈ draw, i < df.rows.length

instance (df : DataFrame) (n : ℕ) (draw : List ℕ) :
    Decidable (ValidDraw df n draw) := by
  unfold ValidDraw; infer_instance

/-- Lines 39-41 of `sample_events`: if both `E` and `E2` are present, store
the heat capacity `beta^2 * system_size * (E2 - E^2)` under key `C`. -/
def deriveC (system_size beta : ℚ) (sample : Dict) : Dict :=
  if dictHas sample "E" && dictHas sample "E2" then
    dictSet sample "C" (beta ^ 2 * system_size *
      ((dictGet sample "E2").getD 0 - ((dictGet sample "E").getD 0) ^ 2))
  else sample

/-- Lines 43-45 of `sample_events`: if both `M` and `M2` are present, store
the susceptibility `beta * system_size * (M2 - M^2)` under key `X`. -/
def deriveX (system_size beta : ℚ) (sample : Dict) : Dict :=
  if dictHas sample "M" && dictHas sample "M2" then
    dictSet sample "X" (beta * system_size *
      ((dictGet sample "M2").getD 0 - ((dictGet sample "M").getD 0) ^ 2))
  else sample

/-- `sample_events` (measurement.py lines 31-47): draw a block, average it
per column, then append derived observables: heat capacity `C` when `E` and
`E2` are present, susceptibility `X` when `M` and `M2` are present. -/
def sample_events (df : DataFrame) (system_size beta : ℚ) (sampling_block : ℕ)
    (draw : List ℕ) : Except PyError Dict :=
  match pdSample df sampling_block draw with
  | .error e => .error e
  | .ok s => .ok (deriveX system_size beta (deriveC system_size beta (dfMean s)))

/-- The per-observable lists collected across repeats
(`observables = defaultdict(list)`). -/
abbrev Observables := List (String × List ℚ)

/-- `observables[name].append(val)` on a `defaultdict(list)`. -/
def obsAppend (obs : Observables) (k : String) (v : ℚ) : Observables :=
  if obs.any (fun p => p.1 == k) then
    obs.map (fun p => if p.1 == k then (p.1, p.2 ++ [v]) else p)
  else obs ++ [(k, [v])]

/-- The inner `for name, val in d.items()` loop of `bootstrap`. -/
def recordSample (obs : Observables) (d : Dict) : Observables :=
  d.foldl (fun o p => obsAppend o p.1 p.2) obs

/-- `df.iloc[thermalization:]`. -/
def trim (df : DataFrame) (thermalization : ℕ) : DataFrame :=
  ⟨df.keys, df.rows.drop thermalization⟩

/-- The `for i in range(repeat)` loop of `bootstrap`: repeat `n` draws
(the `i`-th repeat uses `draws i`), recording every sampled dict. -/
def runRepeats (df : DataFrame) (system_size beta : ℚ) (sampling_block : ℕ)
    (draws : ℕ → List ℕ) : ℕ → Except PyError Observables
  | 0 => .ok []
  | n + 1 =>
    match runRepeats df system_size beta sampling_block draws n with
    | .error e => .error e
    | .ok obs =>
      match sample_events df system_size beta sampling_block (draws n) with
      | .error e => .error e
      | .ok d => .ok (recordSample obs d)

/-- Population variance: `np.std` uses divisor `n` (ddof = 0), so the
standard deviation is the square root of this. -/
def popVar (vals : List ℚ) : ℚ :=
  listMean (vals.map (fun v => (v - listMean vals) ^ 2))

noncomputable section

/-- `np.std(vals)`: population standard deviation (divisor `n`, not `n-1`). -/
def npStd (vals : List ℚ) : ℝ := Real.sqrt (popVar vals)

/-- The final loop of `bootstrap`: for every collected observable store
`estimates[name] = np.mean(vals)` and `estimates[name + 'err'] = np.std(vals)`. -/
def estimatesOf (obs : Observables) : List (String × ℝ) :=
  obs.flatMap (fun p => [(p.1, ((listMean p.2 : ℚ) : ℝ)), (p.1 ++ "err", npStd p.2)])

/-- `bootstrap` (measurement.py lines 50-67), with the CSV already loaded
into `df` (reading the file is the external SeriesLoader) and the random
draws explicit. -/
def bootstrap (df : DataFrame) (system_size beta : ℚ)
    (sampling_block repeats thermalization : ℕ) (draws : ℕ → List ℕ) :
    Except PyError (List (String × ℝ)) :=
  match runRepeats (trim df thermalization) system_size beta sampling_block
      draws repeats with
  | .error e => .error e
  | .ok obs => .ok (estimatesOf obs)

/-- One discovered run: the metadata row (`K`, `T` from the sweep table,
resolved by the external file-discovery collaborator) together with the
loaded raw series and the random draws its bootstrap will consume. -/
structure Run where
  K : ℚ
  T : ℚ
  df : DataFrame
  draws : ℕ → List ℕ

/-- One row of the final table: `data_dict` = `{K, T}` merged with the
bootstrap estimates. -/
structure OutRow where
  K : ℚ
  T : ℚ
  est : List (String × ℝ)

/-- The per-run body of `process_data_for_plotting` (lines 88-101):
`beta = sweep.at[index, 'T']`, `data_dict['K']`, `data_dict['T'] = beta`,
then line 99 `bootstrap(fname, system_size, beta, repeat, thermalization)`.
That call is positional: the configured `repeat` is bound to `bootstrap`'s
`sampling_block` parameter, the configured `thermalization` to its `repeat`
parameter, and `bootstrap`'s own `thermalization` keeps its default `1000`.
The configured `sampling_block` is never forwarded. -/
def mkRow (system_size : ℚ) (sampling_block repeats thermalization : ℕ)
    (r : Run) : Except PyError OutRow :=
  match bootstrap r.df system_size r.T repeats thermalization 1000 r.draws with
  | .error e => .error e
  | .ok est => .ok ⟨r.K, r.T, est⟩

/-- The `for fname in files` loop: build one row per run, failing fast. -/
def buildRows (system_size : ℚ) (sampling_block repeats thermalization : ℕ) :
    List Run → Except PyError (List OutRow)
  | [] => .ok []
  | r :: rs =>
    match mkRow system_size sampling_block repeats thermalization r with
    | .error e => .error e
    | .ok row =>
      match buildRows system_size sampling_block repeats thermalization rs with
      | .error e => .error e
      | .ok rows => .ok (row :: rows)

/-- Ascending-temperature order on output rows. -/
def rowLE (a b : OutRow) : Prop := a.T ≤ b.T

instance : DecidableRel rowLE := fun a b => inferInstanceAs (Decidable (a.T ≤ b.T))

instance : IsTotal OutRow rowLE := ⟨fun a b => le_total a.T b.T⟩

instance : IsTrans OutRow rowLE := ⟨fun _ _ _ h h' => le_trans h h'⟩

/-- `pd.DataFrame(rows_list)` followed by `df.sort_values('T')`:
`pd.DataFrame([])` has no columns at all, so sorting by `'T'` raises
`KeyError`; on a non-empty row list every row dict contains `'T'` and the
frame is sorted ascending by that column. -/
def sort_values_T (rows : List OutRow) : Except PyError (List OutRow) :=
  if rows.isEmpty then .error .keyError
  else .ok (List.insertionSort rowLE rows)

/-- `process_data_for_plotting` (lines 70-105) on the already-discovered
run list (directory scanning and metadata parsing are the external
collaborators). -/
def process_data_for_plotting (system_size : ℚ)
    (sampling_block repeats thermalization : ℕ) (runs : List Run) :
    Except PyError (List OutRow) :=
  match buildRows system_size sampling_block repeats thermalization runs with
  | .error e => .error e
  | .ok rows => sort_values_T rows

end

/-- `df_raw[name][i]` for a label `i : ℤ`: pandas label lookup on the
default integer index raises `KeyError` when the column is missing or the
label is outside `0 .. len(df_raw) - 1`. -/
def seriesGet (df : DataFrame) (name : String) (i : ℤ) : Except PyError ℚ :=
  match df.keys.findIdx? (fun k => k == name) with
  | none => .error .keyError
  | some j =>
    if 0 ≤ i ∧ i < (df.rows.length : ℤ) then
      .ok ((df.rows.getD i.toNat []).getD j 0)
    else .error .keyError

/-- The `for i in range(0, tmax - t)` loop of `autocorrelation`,
accumulating `(sum1, sum2, sum3)`; iteration `i` reads labels `i` and
`i + t`, in that order. `fuel` counts the remaining iterations. -/
def autocorrLoop (df : DataFrame) (name : String) (t : ℤ) :
    ℕ → ℕ → ℚ × ℚ × ℚ → Except PyError (ℚ × ℚ × ℚ)
  | 0, _, acc => .ok acc
  | fuel + 1, i, (s1, s2, s3) =>
    match seriesGet df name (i : ℤ) with
    | .error e => .error e
    | .ok x =>
      match seriesGet df name ((i : ℤ) + t) with
      | .error e => .error e
      | .ok y => autocorrLoop df name t fuel (i + 1) (s1 + x * y, s2 + x, s3 + y)

/-- `autocorrelation` (measurement.py lines 125-140): `assert t < tmax`
with `tmax = len(df_raw)`, then the sum loop over `range(0, tmax - t)`,
then `chi = norm*sum1 - norm^2*sum2*sum3` with `norm = 1/(tmax - t)`
(the source's local variables `tmax` and `norm` are inlined). -/
def autocorrelation (name : String) (t : ℤ) (df_raw : DataFrame) :
    Except PyError ℚ :=
  if t < (df_raw.rows.length : ℤ) then
    match autocorrLoop df_raw name t (((df_raw.rows.length : ℤ) - t).toNat)
        0 (0, 0, 0) with
    | .error e => .error e
    | .ok acc =>
      .ok ((1 / ((df_raw.rows.length : ℚ) - (t : ℚ))) * acc.1 -
        (1 / ((df_raw.rows.length : ℚ) - (t : ℚ))) ^ 2 * acc.2.1 * acc.2.2)
  else .error .assertionError

/-! ### Concrete inputs used in specific scenarios and witnesses -/

/-- The series of the spec's concrete bootstrap scenario. -/
def df5 : DataFrame := ⟨["E", "E2"], [[1, 1], [3, 9], [5, 25], [7, 49]]⟩

/-- A two-row, one-column raw series. -/
def dfA : DataFrame := ⟨["E"], [[1], [2]]⟩

/-- A raw series whose key set already contains a column named `C`
alongside `E` and `E2`. -/
def dfC : DataFrame := ⟨["E", "E2", "C"], [[1, 2, 100]]⟩

/-- Three recorded sweeps with no observable columns. -/
def dfN : DataFrame := ⟨[], [[], [], []]⟩

/-- A run over `dfN` at `K = 1`, `T = 1`. -/
def runB : Run := ⟨1, 1, dfN, fun _ => [0, 1]⟩

/-- A run whose series has one empty record, at `K = 1`, `T = 2`. -/
def runN : Run := ⟨1, 2, ⟨[], [[]]⟩, fun _ => [0]⟩

/-! ### Helper lemmas -/

lemma listMean_perm {l₁ l₂ : List ℚ} (h : l₁.Perm l₂) :
    listMean l₁ = listMean l₂ := by
  unfold listMean
  rw [h.sum_eq, h.length_eq]

lemma map_getD_range {α : Type} (l : List α) (d : α) :
    (List.range l.length).map (fun i => l.getD i d) = l := by
  induction l with
  | nil => rfl
  | cons a t ih =>
    rw [List.length_cons, List.range_succ_eq_map, List.map_cons, List.map_map]
    have h2 : List.map ((fun i => (a :: t).getD i d) ∘ Nat.succ) (List.range t.length) =
        List.map (fun i => t.getD i d) (List.range t.length) :=
      List.map_congr_left (fun i _ => by
        simp only [Function.comp_apply, List.getD_cons_succ])
    rw [h2, ih]
    simp only [List.getD_cons_zero]

lemma validDraw_perm_range {df : DataFrame} {draw : List ℕ}
    (h : ValidDraw df df.rows.length draw) :
    draw.Perm (List.range df.rows.length) := by
  obtain ⟨hnd, hlen, hmem⟩ := h
  refine (List.subperm_of_subset hnd ?_).perm_of_length_le ?_
  · intro i hi
    exact List.mem_range.mpr (hmem i hi)
  · rw [List.length_range, hlen]

/-- A full-length without-replacement draw averages to the full-series
column means. -/
lemma dfMean_sampled (df : DataFrame) (draw : List ℕ)
    (h : ValidDraw df df.rows.length draw) :
    dfMean ⟨df.keys, draw.map (fun i => df.rows.getD i [])⟩ = dfMean df := by
  unfold dfMean
  refine List.map_congr_left (fun j _ => ?_)
  have e1 : (draw.map (fun i => df.rows.getD i [])).map (fun r => r.getD j 0) =
      draw.map (fun i => (df.rows.getD i []).getD j 0) := by
    rw [List.map_map]; rfl
  have e2 : (List.range df.rows.length).map (fun i => (df.rows.getD i []).getD j 0) =
      df.rows.map (fun r => r.getD j 0) := by
    have e3 : (List.range df.rows.length).map (fun i => (df.rows.getD i []).getD j 0) =
        ((List.range df.rows.length).map (fun i => df.rows.getD i [])).map
          (fun r => r.getD j 0) := by
      rw [List.map_map]; rfl
    rw [e3, map_getD_range]
  have hperm : (draw.map (fun i => (df.rows.getD i []).getD j 0)).Perm
      (df.rows.map (fun r => r.getD j 0)) :=
    e2 ▸ (validDraw_perm_range h).map (fun i => (df.rows.getD i []).getD j 0)
  show (df.keys.getD j "", listMean ((draw.map (fun i => df.rows.getD i [])).map
      (fun r => r.getD j 0))) =
    (df.keys.getD j "", listMean (df.rows.map (fun r => r.getD j 0)))
  rw [e1, listMean_perm hperm]

lemma find?_mapSet (d : Dict) (k : String) (v : ℚ) (k' : String) (h : k' ≠ k) :
    (d.map (fun p => if p.1 == k then (k, v) else p)).find? (fun p => p.1 == k') =
      d.find? (fun p => p.1 == k') := by
  induction d with
  | nil => rfl
  | cons p ps ih =>
    rw [List.map_cons]
    by_cases hk : p.1 = k
    · have hfp : (if (p.1 == k) = true then (k, v) else p) = (k, v) := by
        simp [hk]
      rw [hfp, List.find?_cons_of_neg _ (by simp [Ne.symm h]),
        List.find?_cons_of_neg _ (by simp [hk, Ne.symm h])]
      exact ih
    · have hfp : (if (p.1 == k) = true then (k, v) else p) = p := by
        simp [hk]
      rw [hfp]
      by_cases hk' : p.1 = k'
      · rw [List.find?_cons_of_pos _ (by simp [hk']),
          List.find?_cons_of_pos _ (by simp [hk'])]
      · rw [List.find?_cons_of_neg _ (by simp [hk']),
          List.find?_cons_of_neg _ (by simp [hk'])]
        exact ih

lemma find?_appendSet (d : Dict) (k : String) (v : ℚ) (k' : String) (h : k' ≠ k) :
    (d ++ [(k, v)]).find? (fun p => p.1 == k') = d.find? (fun p => p.1 == k') := by
  induction d with
  | nil =>
    rw [List.nil_append, List.find?_cons_of_neg _ (by simp [Ne.symm h])]
  | cons p ps ih =>
    rw [List.cons_append]
    by_cases hk' : p.1 = k'
    · rw [List.find?_cons_of_pos _ (by simp [hk']),
        List.find?_cons_of_pos _ (by simp [hk'])]
    · rw [List.find?_cons_of_neg _ (by simp [hk']),
        List.find?_cons_of_neg _ (by simp [hk'])]
      exact ih

lemma dictGet_dictSet_ne (d : Dict) (k : String) (v : ℚ) (k' : String)
    (h : k' ≠ k) : dictGet (dictSet d k v) k' = dictGet d k' := by
  unfold dictSet dictGet
  by_cases hany : d.any (fun p => p.1 == k) = true
  · rw [if_pos hany, find?_mapSet d k v k' h]
  · rw [if_neg hany, find?_appendSet d k v k' h]

lemma mem_dictSet {d : Dict} {k : String} {v : ℚ} {p : String × ℚ}
    (hp : p ∈ dictSet d k v) : p ∈ d ∨ p.1 = k := by
  unfold dictSet at hp
  by_cases hany : d.any (fun q => q.1 == k) = true
  · rw [if_pos hany] at hp
    obtain ⟨q, hq, hfq⟩ := List.mem_map.mp hp
    by_cases hqk : (q.1 == k) = true
    · right
      rw [← hfq]
      simp [hqk]
    · left
      rw [← hfq]
      simpa [hqk] using hq
  · rw [if_neg hany] at hp
    rcases List.mem_append.mp hp with h1 | h1
    · exact Or.inl h1
    · right
      rw [List.mem_singleton.mp h1]

lemma mem_deriveC {ss b : ℚ} {d : Dict} {p : String × ℚ}
    (hp : p ∈ deriveC ss b d) : p ∈ d ∨ p.1 = "C" := by
  unfold deriveC at hp
  split at hp
  · exact mem_dictSet hp
  · exact Or.inl hp

lemma mem_deriveX {ss b : ℚ} {d : Dict} {p : String × ℚ}
    (hp : p ∈ deriveX ss b d) : p ∈ d ∨ p.1 = "X" := by
  unfold deriveX at hp
  split at hp
  · exact mem_dictSet hp
  · exact Or.inl hp

lemma dictGet_deriveC_ne {ss b : ℚ} {d : Dict} {k : String} (h : k ≠ "C") :
    dictGet (deriveC ss b d) k = dictGet d k := by
  unfold deriveC
  split
  · exact dictGet_dictSet_ne d "C" _ k h
  · rfl

lemma dictGet_deriveX_ne {ss b : ℚ} {d : Dict} {k : String} (h : k ≠ "X") :
    dictGet (deriveX ss b d) k = dictGet d k := by
  unfold deriveX
  split
  · exact dictGet_dictSet_ne d "X" _ k h
  · rfl

lemma mem_dfMean {df : DataFrame} {p : String × ℚ} (hp : p ∈ dfMean df) :
    p.1 ∈ df.keys := by
  unfold dfMean at hp
  obtain ⟨j, hj, hpj⟩ := List.mem_map.mp hp
  have hj' : j < df.keys.length := List.mem_range.mp hj
  rw [← hpj]
  show df.keys.getD j "" ∈ df.keys
  rw [List.getD_eq_getElem df.keys "" hj']
  exact List.getElem_mem hj'

lemma listMean_singleton (v : ℚ) : listMean [v] = v := by
  simp [listMean]

lemma popVar_singleton (v : ℚ) : popVar [v] = 0 := by
  simp [popVar, listMean_singleton, listMean]

lemma npStd_singleton (v : ℚ) : npStd [v] = 0 := by
  simp [npStd, popVar_singleton]

lemma sample_events_ok {df : DataFrame} {ss b : ℚ} {n : ℕ} {draw : List ℕ}
    (hle : n ≤ df.rows.length) :
    sample_events df ss b n draw = .ok (deriveX ss b (deriveC ss b
      (dfMean ⟨df.keys, draw.map (fun i => df.rows.getD i [])⟩))) := by
  unfold sample_events pdSample
  rw [if_pos hle]

lemma sample_events_err {df : DataFrame} {ss b : ℚ} {n : ℕ} {draw : List ℕ}
    (hlt : df.rows.length < n) :
    sample_events df ss b n draw = .error .valueError := by
  unfold sample_events pdSample
  rw [if_neg (not_le.mpr hlt)]

lemma sample_events_error_imp {df : DataFrame} {ss b : ℚ} {n : ℕ}
    {draw : List ℕ} {e : PyError}
    (h : sample_events df ss b n draw = .error e) :
    e = .valueError ∧ df.rows.length < n := by
  by_cases hle : n ≤ df.rows.length
  · rw [sample_events_ok hle] at h
    exact absurd h (by simp)
  · have hlt := lt_of_not_le hle
    rw [sample_events_err hlt] at h
    exact ⟨(Except.error.inj h).symm, hlt⟩

lemma runRepeats_zero {df : DataFrame} {ss b : ℚ} {n : ℕ} {draws : ℕ → List ℕ} :
    runRepeats df ss b n draws 0 = .ok [] := rfl

lemma runRepeats_succ {df : DataFrame} {ss b : ℚ} {n : ℕ} {draws : ℕ → List ℕ}
    {k : ℕ} : runRepeats df ss b n draws (k + 1) =
      match runRepeats df ss b n draws k with
      | .error e => .error e
      | .ok obs =>
        match sample_events df ss b n (draws k) with
        | .error e => .error e
        | .ok d => .ok (recordSample obs d) := rfl

lemma runRepeats_ok_of_le {df : DataFrame} {ss b : ℚ} {n : ℕ}
    {draws : ℕ → List ℕ} (hle : n ≤ df.rows.length) (k : ℕ) :
    ∃ obs, runRepeats df ss b n draws k = .ok obs := by
  induction k with
  | zero => exact ⟨[], rfl⟩
  | succ k ih =>
    obtain ⟨obs, hobs⟩ := ih
    exact ⟨recordSample obs (deriveX ss b (deriveC ss b (dfMean
        ⟨df.keys, (draws k).map (fun i => df.rows.getD i [])⟩))),
      by rw [runRepeats_succ, hobs, sample_events_ok hle]⟩

lemma runRepeats_ne_error_of_le {df : DataFrame} {ss b : ℚ} {n : ℕ}
    {draws : ℕ → List ℕ} (hle : n ≤ df.rows.length) (k : ℕ) (e : PyError) :
    runRepeats df ss b n draws k ≠ .error e := by
  intro h
  obtain ⟨obs, ho⟩ := runRepeats_ok_of_le hle k
  rw [ho] at h
  exact Except.noConfusion h

lemma runRepeats_error_of {df : DataFrame} {ss b : ℚ} {n : ℕ}
    {draws : ℕ → List ℕ} {k : ℕ} (hk : 1 ≤ k) (hlt : df.rows.length < n) :
    runRepeats df ss b n draws k = .error .valueError := by
  induction k with
  | zero => exact absurd hk (by simp)
  | succ k ih =>
    rw [runRepeats_succ]
    cases Nat.eq_zero_or_pos k with
    | inl h0 =>
      subst h0
      rw [runRepeats_zero, sample_events_err hlt]
    | inr hpos =>
      rw [ih hpos]

lemma runRepeats_error_imp {df : DataFrame} {ss b : ℚ} {n : ℕ}
    {draws : ℕ → List ℕ} {k : ℕ} {e : PyError}
    (h : runRepeats df ss b n draws k = .error e) :
    e = .valueError ∧ 1 ≤ k ∧ df.rows.length < n := by
  have hlt : df.rows.length < n := by
    by_contra hle
    exact runRepeats_ne_error_of_le (not_lt.mp hle) k e h
  have hk : 1 ≤ k := by
    cases k with
    | zero => exact absurd h (by simp [runRepeats_zero])
    | succ k => exact Nat.succ_le_succ (Nat.zero_le k)
  have hv := @runRepeats_error_of df ss b n draws k hk hlt
  rw [hv] at h
  exact ⟨(Except.error.inj h).symm, hk, hlt⟩

/-- Folding fresh keys into the observables accumulator just appends
singleton lists. -/
lemma recordSample_fresh (d : Dict) : ∀ acc : Observables,
    (acc.map Prod.fst ++ d.map Prod.fst).Nodup →
    recordSample acc d = acc ++ d.map (fun p => (p.1, [p.2])) := by
  induction d with
  | nil =>
    intro acc _
    simp [recordSample]
  | cons p ps ih =>
    intro acc hnd
    have hdisj : p.1 ∉ acc.map Prod.fst := by
      rw [List.map_cons] at hnd
      have := List.disjoint_of_nodup_append hnd
      intro hmem
      exact this hmem (List.mem_cons_self _ _)
    have hany : acc.any (fun q => q.1 == p.1) = false := by
      rw [List.any_eq_false]
      intro q hq hq1
      exact hdisj ((eq_of_beq hq1) ▸ List.mem_map_of_mem Prod.fst hq)
    have hstep : obsAppend acc p.1 p.2 = acc ++ [(p.1, [p.2])] := by
      unfold obsAppend
      rw [hany]
      simp
    have hrec : recordSample acc (p :: ps) =
        recordSample (obsAppend acc p.1 p.2) ps := rfl
    rw [hrec, hstep, ih (acc ++ [(p.1, [p.2])]) ?_, List.append_assoc]
    · rfl
    · rw [List.map_append, List.append_assoc]
      simpa using hnd

lemma recordSample_nil (d : Dict) (h : (d.map Prod.fst).Nodup) :
    recordSample [] d = d.map (fun p => (p.1, [p.2])) := by
  have := recordSample_fresh d [] (by simpa using h)
  simpa using this

lemma estimatesOf_map_singleton (d : Dict) :
    estimatesOf (d.map (fun p => (p.1, [p.2]))) =
      d.flatMap (fun p => [(p.1, ((p.2 : ℚ) : ℝ)), (p.1 ++ "err", 0)]) := by
  induction d with
  | nil => rfl
  | cons p ps ih =>
    simp only [List.map_cons, List.flatMap_cons, estimatesOf] at ih ⊢
    rw [listMean_singleton, npStd_singleton, ih]

lemma seriesGet_none {df : DataFrame} {name : String} {i : ℤ}
    (hf : df.keys.findIdx? (fun k => k == name) = none) :
    seriesGet df name i = .error .keyError := by
  unfold seriesGet
  rw [hf]

lemma seriesGet_some {df : DataFrame} {name : String} {i : ℤ} {j : ℕ}
    (hf : df.keys.findIdx? (fun k => k == name) = some j) :
    seriesGet df name i =
      if 0 ≤ i ∧ i < (df.rows.length : ℤ) then
        .ok ((df.rows.getD i.toNat []).getD j 0)
      else .error .keyError := by
  unfold seriesGet
  rw [hf]

lemma seriesGet_error_imp {df : DataFrame} {name : String} {i : ℤ} {e : PyError}
    (h : seriesGet df name i = .error e) : e = .keyError := by
  cases hf : df.keys.findIdx? (fun k => k == name) with
  | none =>
    rw [seriesGet_none hf] at h
    exact (Except.error.inj h).symm
  | some j =>
    rw [seriesGet_some hf] at h
    by_cases hb : 0 ≤ i ∧ i < (df.rows.length : ℤ)
    · rw [if_pos hb] at h
      exact absurd h (by simp)
    · rw [if_neg hb] at h
      exact (Except.error.inj h).symm

lemma seriesGet_ok {df : DataFrame} {name : String} {i : ℤ} {j : ℕ}
    (hf : df.keys.findIdx? (fun k => k == name) = some j)
    (h0 : 0 ≤ i) (hlen : i < (df.rows.length : ℤ)) :
    seriesGet df name i = .ok ((df.rows.getD i.toNat []).getD j 0) := by
  rw [seriesGet_some hf, if_pos ⟨h0, hlen⟩]

lemma autocorrLoop_zero {df : DataFrame} {name : String} {t : ℤ} {i : ℕ}
    {acc : ℚ × ℚ × ℚ} : autocorrLoop df name t 0 i acc = .ok acc := rfl

lemma autocorrLoop_succ {df : DataFrame} {name : String} {t : ℤ} {fuel i : ℕ}
    {s1 s2 s3 : ℚ} : autocorrLoop df name t (fuel + 1) i (s1, s2, s3) =
      match seriesGet df name (i : ℤ) with
      | .error e => .error e
      | .ok x =>
        match seriesGet df name ((i : ℤ) + t) with
        | .error e => .error e
        | .ok y =>
          autocorrLoop df name t fuel (i + 1) (s1 + x * y, s2 + x, s3 + y) := rfl

lemma autocorrLoop_error_imp {df : DataFrame} {name : String} {t : ℤ} :
    ∀ fuel i acc e, autocorrLoop df name t fuel i acc = .error e →
      e = .keyError := by
  intro fuel
  induction fuel with
  | zero =>
    intro i acc e h
    exact absurd h (by simp [autocorrLoop_zero])
  | succ fuel ih =>
    intro i acc e h
    obtain ⟨s1, s2, s3⟩ := acc
    rw [autocorrLoop_succ] at h
    cases h1 : seriesGet df name (i : ℤ) with
    | error e1 =>
      rw [h1] at h
      exact (Except.error.inj h).symm.trans (seriesGet_error_imp h1)
    | ok x =>
      rw [h1] at h
      cases h2 : seriesGet df name ((i : ℤ) + t) with
      | error e2 =>
        rw [h2] at h
        exact (Except.error.inj h).symm.trans (seriesGet_error_imp h2)
      | ok y =>
        rw [h2] at h
        exact ih (i + 1) _ e h

lemma autocorrLoop_ok {df : DataFrame} {name : String} {t : ℤ} {j : ℕ}
    (hf : df.keys.findIdx? (fun k => k == name) = some j) (ht : 0 ≤ t) :
    ∀ (fuel i : ℕ) (acc : ℚ × ℚ × ℚ),
      (i : ℤ) + (fuel : ℤ) + t ≤ (df.rows.length : ℤ) →
      ∃ acc', autocorrLoop df name t fuel i acc = .ok acc' := by
  intro fuel
  induction fuel with
  | zero =>
    intro i acc _
    exact ⟨acc, autocorrLoop_zero⟩
  | succ fuel ih =>
    intro i acc hb
    obtain ⟨s1, s2, s3⟩ := acc
    have hi : (i : ℤ) < (df.rows.length : ℤ) := by push_cast at hb ⊢; omega
    have hit : (i : ℤ) + t < (df.rows.length : ℤ) := by push_cast at hb ⊢; omega
    have h0 : (0 : ℤ) ≤ (i : ℤ) := Int.ofNat_nonneg i
    have h0t : (0 : ℤ) ≤ (i : ℤ) + t := by omega
    rw [autocorrLoop_succ, seriesGet_ok hf h0 hi, seriesGet_ok hf h0t hit]
    exact ih (i + 1) _ (by push_cast at hb ⊢; omega)

lemma mkRow_ok_imp {ss : ℚ} {block reps th : ℕ} {r : Run} {row : OutRow}
    (h : mkRow ss block reps th r = .ok row) :
    row.K = r.K ∧ row.T = r.T ∧
      bootstrap r.df ss r.T reps th 1000 r.draws = .ok row.est := by
  unfold mkRow at h
  cases hb : bootstrap r.df ss r.T reps th 1000 r.draws with
  | error e =>
    rw [hb] at h
    exact absurd h (by simp)
  | ok est =>
    rw [hb] at h
    have he : (⟨r.K, r.T, est⟩ : OutRow) = row := Except.ok.inj h
    subst he
    exact ⟨rfl, rfl, rfl⟩

lemma buildRows_mem {ss : ℚ} {block reps th : ℕ} {runs : List Run}
    {rows : List OutRow} (h : buildRows ss block reps th runs = .ok rows) :
    ∀ row ∈ rows, ∃ r ∈ runs, mkRow ss block reps th r = .ok row := by
  induction runs generalizing rows with
  | nil =>
    intro row hrow
    have : rows = [] := (Except.ok.inj h).symm
    rw [this] at hrow
    exact absurd hrow (List.not_mem_nil row)
  | cons r rs ih =>
    intro row hrow
    unfold buildRows at h
    cases hm : mkRow ss block reps th r with
    | error e =>
      rw [hm] at h
      exact absurd h (by simp)
    | ok row0 =>
      rw [hm] at h
      cases hbr : buildRows ss block reps th rs with
      | error e =>
        rw [hbr] at h
        exact absurd h (by simp)
      | ok rest =>
        rw [hbr] at h
        have : row0 :: rest = rows := Except.ok.inj h
        rw [← this] at hrow
        rcases List.mem_cons.mp hrow with h1 | h1
        · exact ⟨r, List.mem_cons_self r rs, h1 ▸ hm⟩
        · obtain ⟨r', hr', hm'⟩ := ih hbr row h1
          exact ⟨r', List.mem_cons_of_mem r hr', hm'⟩

lemma sort_values_T_ok_imp {rows tbl : List OutRow}
    (h : sort_values_T rows = .ok tbl) :
    tbl = List.insertionSort rowLE rows := by
  unfold sort_values_T at h
  by_cases he : rows.isEmpty = true
  · rw [if_pos he] at h
    exact absurd h (by simp)
  · rw [if_neg he] at h
    exact (Except.ok.inj h).symm

lemma process_ok_imp {ss : ℚ} {block reps th : ℕ} {runs : List Run}
    {tbl : List OutRow}
    (h : process_data_for_plotting ss block reps th runs = .ok tbl) :
    ∃ rows, buildRows ss block reps th runs = .ok rows ∧
      tbl = List.insertionSort rowLE rows := by
  unfold process_data_for_plotting at h
  cases hb : buildRows ss block reps th runs with
  | error e =>
    rw [hb] at h
    exact absurd h (by simp)
  | ok rows =>
    rw [hb] at h
    exact ⟨rows, rfl, sort_values_T_ok_imp h⟩

lemma bootstrap_def (df : DataFrame) (ss b : ℚ) (block rep th : ℕ)
    (draws : ℕ → List ℕ) :
    bootstrap df ss b block rep th draws =
      match runRepeats (trim df th) ss b block draws rep with
      | .error e => .error e
      | .ok obs => .ok (estimatesOf obs) := rfl

/-! ### Claims -/

/-- C1: the claim says each configured parameter of the aggregation reaches
the estimator in its corresponding position (block size as block size,
repeat count as repeat count, and the configured thermalization is
trimmed). The per-run call at line 99 instead passes `repeat` in the
block-size position and `thermalization` in the repeat position, leaving
the trim depth at the default 1000. On a run with 3 recorded sweeps and
configuration (block = 2, repeats = 2, thermalization = 1) the code's call
fails with the insufficient-data `ValueError` (everything was trimmed away
by the default 1000), while the call with correctly routed arguments
succeeds. -/
theorem mkRow_misroutes_bootstrap_arguments :
    mkRow 1 2 2 1 runB = .error .valueError ∧
    bootstrap runB.df 1 runB.T 2 2 1 runB.draws = .ok [] := ⟨rfl, rfl⟩

/-- C2 counterexample: the claim says `repeats = 0` raises
`InsufficientDataError`; the code silently returns an empty estimate
mapping instead (even with block size 50 far above the 0 post-trim rows). -/
theorem bootstrap_zero_repeats_returns_empty :
    bootstrap dfA 1 1 50 0 1000 (fun _ => []) = .ok [] ∧
    ∀ e, bootstrap dfA 1 1 50 0 1000 (fun _ => []) ≠ .error e := by
  have h1 : bootstrap dfA 1 1 50 0 1000 (fun _ => []) = .ok [] := rfl
  exact ⟨h1, fun e h => Except.noConfusion (h1.symm.trans h)⟩

/-- C2 (amended): `bootstrap` raises the insufficient-data `ValueError`
iff at least one repeat is requested and the post-trim series has fewer
rows than the block size; no other error kind can escape, and with zero
repeats it silently returns an empty estimate mapping. -/
theorem bootstrap_error_characterization (df : DataFrame) (ss b : ℚ)
    (block rep th : ℕ) (draws : ℕ → List ℕ) (e : PyError) :
    (bootstrap df ss b block rep th draws = .error e ↔
      e = .valueError ∧ 1 ≤ rep ∧ (df.rows.drop th).length < block) ∧
    bootstrap df ss b block 0 th draws = .ok [] := by
  refine ⟨⟨?_, ?_⟩, rfl⟩
  · intro h
    rw [bootstrap_def] at h
    cases hr : runRepeats (trim df th) ss b block draws rep with
    | error e' =>
      rw [hr] at h
      have h' : (Except.error e' : Except PyError (List (String × ℝ))) =
          .error e := h
      obtain ⟨he, hk, hlt⟩ := runRepeats_error_imp hr
      exact ⟨(Except.error.inj h').symm.trans he, hk, hlt⟩
    | ok obs =>
      rw [hr] at h
      have h' : (Except.ok (estimatesOf obs) : Except PyError _) = .error e := h
      exact absurd h' (by simp)
  · rintro ⟨he, hk, hlt⟩
    subst he
    rw [bootstrap_def, @runRepeats_error_of (trim df th) ss b block draws rep hk hlt]

/-- C2 witness: one repeat with block size 3 on the 2-row (untrimmed)
series raises the insufficient-data `ValueError`. -/
theorem bootstrap_error_characterization_witness :
    bootstrap dfA 1 1 3 1 0 (fun _ => []) = .error .valueError :=
  ((bootstrap_error_characterization dfA 1 1 3 1 0 (fun _ => [])
    .valueError).1).mpr ⟨rfl, by decide, by decide⟩

/-- C3 counterexample: on an empty run list `process_data_for_plotting`
does not return an empty table; sorting the empty, column-less frame by
`'T'` raises `KeyError`. -/
theorem aggregate_empty_runs_keyError :
    process_data_for_plotting 1 50 200 1000 [] = .error .keyError ∧
    process_data_for_plotting 1 50 200 1000 [] ≠ .ok [] := by
  have h1 : process_data_for_plotting 1 50 200 1000 [] = .error .keyError := rfl
  exact ⟨h1, fun hc => Except.noConfusion (h1.symm.trans hc)⟩

/-- C3 (amended): for every configuration, aggregation of an empty run
list fails with `KeyError` (from sorting by the absent `T` column) rather
than returning an empty table. -/
theorem aggregate_empty_runs_raises (ss : ℚ) (block reps th : ℕ) :
    process_data_for_plotting ss block reps th [] = .error .keyError := rfl

/-- C4 counterexample: a negative lag is outside the claimed valid range,
but the call fails with the label-lookup `KeyError`, not with the
lag-validation `AssertionError` (the `InvalidLagError` analogue). -/
theorem autocorrelation_negative_lag_keyError :
    autocorrelation "E" (-1) dfA = .error .keyError ∧
    PyError.keyError ≠ PyError.assertionError := ⟨rfl, by decide⟩

/-- C4 (amended): the lag validation (`assert t < tmax`) rejects with the
`AssertionError` exactly the lags `≥ len(series)`; any other error is a
lookup `KeyError` (negative lags pass the validation and fail that way);
and for `0 ≤ lag < len(series)` with an existing column the call returns
a value. -/
theorem autocorrelation_error_kinds (name : String) (t : ℤ) (df : DataFrame) :
    (autocorrelation name t df = .error .assertionError ↔
      (df.rows.length : ℤ) ≤ t) ∧
    (∀ e, autocorrelation name t df = .error e →
      e = .assertionError ∨ e = .keyError) ∧
    (0 ≤ t → t < (df.rows.length : ℤ) → name ∈ df.keys →
      ∃ q, autocorrelation name t df = .ok q) := by
  by_cases hlt : t < (df.rows.length : ℤ)
  · refine ⟨⟨?_, ?_⟩, ?_, ?_⟩
    · intro h
      exfalso
      unfold autocorrelation at h
      rw [if_pos hlt] at h
      cases ha : autocorrLoop df name t (((df.rows.length : ℤ) - t).toNat)
          0 (0, 0, 0) with
      | error e' =>
        rw [ha] at h
        have h' : (Except.error e' : Except PyError ℚ) =
            .error .assertionError := h
        have he' := autocorrLoop_error_imp _ _ _ _ ha
        rw [he'] at h'
        exact PyError.noConfusion (Except.error.inj h')
      | ok acc =>
        rw [ha] at h
        have h' : (Except.ok ((1 / ((df.rows.length : ℚ) - (t : ℚ))) * acc.1 -
            (1 / ((df.rows.length : ℚ) - (t : ℚ))) ^ 2 * acc.2.1 * acc.2.2) :
            Except PyError ℚ) = .error .assertionError := h
        exact Except.noConfusion h'
    · intro hge
      exact absurd hlt (not_lt.mpr hge)
    · intro e he
      unfold autocorrelation at he
      rw [if_pos hlt] at he
      cases ha : autocorrLoop df name t (((df.rows.length : ℤ) - t).toNat)
          0 (0, 0, 0) with
      | error e' =>
        rw [ha] at he
        have h' : (Except.error e' : Except PyError ℚ) = .error e := he
        exact Or.inr ((Except.error.inj h').symm.trans
          (autocorrLoop_error_imp _ _ _ _ ha))
      | ok acc =>
        rw [ha] at he
        have h' : (Except.ok ((1 / ((df.rows.length : ℚ) - (t : ℚ))) * acc.1 -
            (1 / ((df.rows.length : ℚ) - (t : ℚ))) ^ 2 * acc.2.1 * acc.2.2) :
            Except PyError ℚ) = .error e := he
        exact absurd h' (by simp)
    · intro h0 hl hname
      obtain ⟨j, hj⟩ : ∃ j, df.keys.findIdx? (fun k => k == name) = some j := by
        cases hf : df.keys.findIdx? (fun k => k == name) with
        | none =>
          have := List.findIdx?_eq_none_iff.mp hf name hname
          simp at this
        | some j => exact ⟨j, rfl⟩
      obtain ⟨acc', hacc⟩ := autocorrLoop_ok hj h0
        (((df.rows.length : ℤ) - t).toNat) 0 (0, 0, 0) (by omega)
      refine ⟨(1 / ((df.rows.length : ℚ) - (t : ℚ))) * acc'.1 -
        (1 / ((df.rows.length : ℚ) - (t : ℚ))) ^ 2 * acc'.2.1 * acc'.2.2, ?_⟩
      unfold autocorrelation
      rw [if_pos hl, hacc]
  · have heq : autocorrelation name t df = .error .assertionError := by
      unfold autocorrelation
      rw [if_neg hlt]
    refine ⟨?_, ?_, ?_⟩
    · rw [heq]
      exact ⟨fun _ => not_lt.mp hlt, fun _ => rfl⟩
    · intro e he
      rw [heq] at he
      exact Or.inl (Except.error.inj he).symm
    · intro _ hl _
      exact absurd hl hlt

/-- C4 witness: lag 0 on the 2-row series is in range and the call
returns a value. -/
theorem autocorrelation_error_kinds_witness :
    ∃ q, autocorrelation "E" 0 dfA = .ok q :=
  (autocorrelation_error_kinds "E" 0 dfA).2.2 (by decide) (by decide) (by decide)

/-- C5: the spec's concrete scenario. For every without-replacement draw of
4 distinct rows from the 4-row series (which is necessarily the whole
series), the bootstrap with block size 4, one repeat, system size 1 and
beta 1 yields mean(E) = 4, mean(E2) = 21 and C = 21 - 16 = 5 exactly
(with all stderr entries 0). -/
theorem bootstrap_concrete_scenario (draw : List ℕ) (h : ValidDraw df5 4 draw) :
    bootstrap df5 1 1 4 1 0 (fun _ => draw) =
      .ok [("E", 4), ("Eerr", 0), ("E2", 21), ("E2err", 0),
        ("C", 5), ("Cerr", 0)] := by
  have hm : dfMean ⟨df5.keys, draw.map (fun i => df5.rows.getD i [])⟩ =
      dfMean df5 := dfMean_sampled df5 draw h
  have hle : (4 : ℕ) ≤ df5.rows.length := by decide
  have hs : sample_events df5 1 1 4 draw =
      .ok (deriveX 1 1 (deriveC 1 1 (dfMean df5))) := by
    rw [sample_events_ok hle, hm]
  have e2 : runRepeats (trim df5 0) 1 1 4 (fun _ => draw) 1 =
      .ok (recordSample [] (deriveX 1 1 (deriveC 1 1 (dfMean df5)))) := by
    have e3 : runRepeats (trim df5 0) 1 1 4 (fun _ => draw) 1 =
        match sample_events df5 1 1 4 draw with
        | .error e => .error e
        | .ok d => .ok (recordSample [] d) := rfl
    rw [e3, hs]
  rw [bootstrap_def, e2]
  show Except.ok (estimatesOf (recordSample []
    (deriveX 1 1 (deriveC 1 1 (dfMean df5))))) = _
  simp +decide [df5, dfMean, listMean, List.range_succ, deriveC, deriveX,
    dictGet, dictSet, dictHas, recordSample, obsAppend, estimatesOf,
    npStd, popVar]
  norm_num

/-- C5 witness: the draw `[2, 0, 3, 1]` is a valid without-replacement
draw of 4 rows, and the bootstrap produces exactly the claimed values. -/
theorem bootstrap_concrete_scenario_witness :
    ValidDraw df5 4 [2, 0, 3, 1] ∧
    bootstrap df5 1 1 4 1 0 (fun _ => [2, 0, 3, 1]) =
      .ok [("E", 4), ("Eerr", 0), ("E2", 21), ("E2err", 0),
        ("C", 5), ("Cerr", 0)] :=
  ⟨by decide, bootstrap_concrete_scenario [2, 0, 3, 1] (by decide)⟩

/-- C6: with `repeats = 1` the estimate of every collected observable is
the single block's derived value (np.mean of one value) and its `err`
entry is exactly 0 (np.std of one value, population convention with
divisor n). -/
theorem bootstrap_single_repeat (df : DataFrame) (ss b : ℚ) (block th : ℕ)
    (draws : ℕ → List ℕ) (d : Dict)
    (h1 : sample_events (trim df th) ss b block (draws 0) = .ok d)
    (h2 : (d.map Prod.fst).Nodup) :
    bootstrap df ss b block 1 th draws =
      .ok (d.flatMap (fun p => [(p.1, ((p.2 : ℚ) : ℝ)), (p.1 ++ "err", 0)])) := by
  have e2 : runRepeats (trim df th) ss b block draws 1 =
      .ok (recordSample [] d) := by
    have e3 : runRepeats (trim df th) ss b block draws 1 =
        match sample_events (trim df th) ss b block (draws 0) with
        | .error e => .error e
        | .ok d0 => .ok (recordSample [] d0) := rfl
    rw [e3, h1]
  rw [bootstrap_def, e2]
  show Except.ok (estimatesOf (recordSample [] d)) = _
  rw [recordSample_nil d h2, estimatesOf_map_singleton]

/-- C6 witness: one repeat on the two-row series `dfA` with block size 1
drawing row 1 gives the estimate `E = 2` with `Eerr = 0` exactly. -/
theorem bootstrap_single_repeat_witness :
    bootstrap dfA 1 1 1 1 0 (fun _ => [1]) =
      .ok ([("E", (2 : ℚ))].flatMap
        (fun p => [(p.1, ((p.2 : ℚ) : ℝ)), (p.1 ++ "err", 0)])) := by
  have h1 : sample_events (trim dfA 0) 1 1 1 [1] = .ok [("E", (2 : ℚ))] := by
    simp +decide [sample_events, pdSample, trim, dfMean, dfA, listMean,
      List.range_succ, deriveC, deriveX, dictHas, dictGet, dictSet]
  exact bootstrap_single_repeat dfA 1 1 1 0 (fun _ => [1]) [("E", 2)] h1
    (by decide)

/-- C7: whenever the aggregation returns a table, its rows are ordered
non-decreasing in the temperature column `T` (the aggregator sorts by
ascending `T` before returning), for every input run order. -/
theorem aggregate_rows_sorted (ss : ℚ) (block reps th : ℕ) (runs : List Run)
    (tbl : List OutRow)
    (h : process_data_for_plotting ss block reps th runs = .ok tbl) :
    tbl.Sorted rowLE := by
  obtain ⟨rows, _, hsort⟩ := process_ok_imp h
  rw [hsort]
  exact List.sorted_insertionSort rowLE rows

/-- C7 witness: a concrete one-run aggregation returns a table sorted by
temperature. -/
theorem aggregate_rows_sorted_witness :
    ([⟨1, 2, []⟩] : List OutRow).Sorted rowLE :=
  aggregate_rows_sorted 1 1 1 0 [runN] [⟨1, 2, []⟩] rfl

/-- C9: for every row of the returned table there is an input run with the
same `K` and `T`, whose estimates were computed by `bootstrap` with the
beta argument equal to that run's raw metadata `T` value (line 96 assigns
`beta = sweep.at[index, 'T']`, not `1/T`) — hence the beta used equals the
row's own `T` column. -/
theorem aggregate_beta_equals_row_T (ss : ℚ) (block reps th : ℕ)
    (runs : List Run) (tbl : List OutRow)
    (h : process_data_for_plotting ss block reps th runs = .ok tbl) :
    ∀ row ∈ tbl, ∃ r ∈ runs, row.K = r.K ∧ row.T = r.T ∧
      bootstrap r.df ss r.T reps th 1000 r.draws = .ok row.est := by
  obtain ⟨rows, hbuild, hsort⟩ := process_ok_imp h
  intro row hrow
  have hrow' : row ∈ rows := by
    rw [hsort] at hrow
    exact (List.perm_insertionSort rowLE rows).mem_iff.mp hrow
  obtain ⟨r, hr, hm⟩ := buildRows_mem hbuild row hrow'
  obtain ⟨hK, hT, hboot⟩ := mkRow_ok_imp hm
  exact ⟨r, hr, hK, hT, hboot⟩

/-- C9 witness: in the concrete one-run aggregation, the single output row
has `T = 2` equal to the run's metadata `T`, and its estimates came from
`bootstrap` called with beta equal to that same value. -/
theorem aggregate_beta_equals_row_T_witness :
    ∃ r ∈ [runN], (⟨1, 2, []⟩ : OutRow).K = r.K ∧
      (⟨1, 2, []⟩ : OutRow).T = r.T ∧
      bootstrap r.df 1 r.T 1 0 1000 r.draws = .ok (⟨1, 2, []⟩ : OutRow).est :=
  aggregate_beta_equals_row_T 1 1 1 0 [runN] [⟨1, 2, []⟩] rfl
    ⟨1, 2, []⟩ (List.mem_singleton.mpr rfl)

/-- C8: a without-replacement draw of distinct row indices whose size
equals the series length samples the whole series (up to order), so the
per-key averages of the drawn block equal the full-series means. -/
theorem sample_full_block_population_mean (df : DataFrame) (draw : List ℕ)
    (h : ValidDraw df df.rows.length draw) :
    pdSample df df.rows.length draw =
      .ok ⟨df.keys, draw.map (fun i => df.rows.getD i [])⟩ ∧
    dfMean ⟨df.keys, draw.map (fun i => df.rows.getD i [])⟩ = dfMean df := by
  constructor
  · unfold pdSample
    rw [if_pos (le_refl _)]
  · exact dfMean_sampled df draw h

/-- C8 witness: the full-length draw `[3, 1, 2, 0]` of the 4-row series
is accepted and its column means equal the full-series means. -/
theorem sample_full_block_population_mean_witness :
    pdSample df5 df5.rows.length [3, 1, 2, 0] =
      .ok ⟨df5.keys, [3, 1, 2, 0].map (fun i => df5.rows.getD i [])⟩ ∧
    dfMean ⟨df5.keys, [3, 1, 2, 0].map (fun i => df5.rows.getD i [])⟩ =
      dfMean df5 :=
  sample_full_block_population_mean df5 [3, 1, 2, 0] (by decide)

/-- C10 counterexample: when the raw key set itself contains `C` (here
with one row `E = 1, E2 = 2, C = 100`), the derivation overwrites the raw
column's drawn mean: the returned sample maps `C` to the derived heat
capacity 1, not to the drawn-rows mean 100. -/
theorem sample_events_overwrites_raw_C :
    sample_events dfC 1 1 1 [0] = .ok [("E", 1), ("E2", 2), ("C", 1)] ∧
    dictGet (dfMean ⟨dfC.keys, [0].map (fun i => dfC.rows.getD i [])⟩) "C" =
      some 100 ∧
    (1 : ℚ) ≠ 100 := by
  refine ⟨?_, ?_, by norm_num⟩
  · simp +decide [sample_events, pdSample, dfMean, dfC, listMean,
      List.range_succ, deriveC, deriveX, dictHas, dictGet, dictSet]
    norm_num
  · simp +decide [dfMean, dfC, listMean, List.range_succ, dictGet]

/-- C10 (amended): provided the raw key set contains neither `C` nor `X`,
the derivation step never alters the raw entries: every raw column key is
mapped to the drawn-rows mean for that key, and the only keys of the
returned sample beyond the raw ones are `C` and `X`. -/
theorem sample_events_frame_effect (df : DataFrame) (ss b : ℚ) (n : ℕ)
    (draw : List ℕ) (d : Dict)
    (hC : "C" ∉ df.keys) (hX : "X" ∉ df.keys)
    (hok : sample_events df ss b n draw = .ok d) :
    (∀ k ∈ df.keys, dictGet d k =
      dictGet (dfMean ⟨df.keys, draw.map (fun i => df.rows.getD i [])⟩) k) ∧
    (∀ p ∈ d, p.1 ∈ df.keys ∨ p.1 = "C" ∨ p.1 = "X") := by
  have hle : n ≤ df.rows.length := by
    by_contra hlt
    rw [sample_events_err (lt_of_not_le hlt)] at hok
    exact Except.noConfusion hok
  rw [sample_events_ok hle] at hok
  have hd : d = deriveX ss b (deriveC ss b
      (dfMean ⟨df.keys, draw.map (fun i => df.rows.getD i [])⟩)) :=
    (Except.ok.inj hok).symm
  subst hd
  constructor
  · intro k hk
    have hkC : k ≠ "C" := fun he => hC (he ▸ hk)
    have hkX : k ≠ "X" := fun he => hX (he ▸ hk)
    rw [dictGet_deriveX_ne hkX, dictGet_deriveC_ne hkC]
  · intro p hp
    rcases mem_deriveX hp with hp1 | hp1
    · rcases mem_deriveC hp1 with hp2 | hp2
      · exact Or.inl
          (@mem_dfMean ⟨df.keys, draw.map (fun i => df.rows.getD i [])⟩ p hp2)
      · exact Or.inr (Or.inl hp2)
    · exact Or.inr (Or.inr hp1)

/-- C10 witness: on the series `dfA` (raw key `E` only) with the one-row
draw `[0]`, the returned sample's `E` entry equals the drawn block's mean
for `E`. -/
theorem sample_events_frame_effect_witness :
    dictGet [("E", (1 : ℚ))] "E" =
      dictGet (dfMean ⟨dfA.keys, [0].map (fun i => dfA.rows.getD i [])⟩) "E" := by
  have hok : sample_events dfA 1 1 1 [0] = .ok [("E", (1 : ℚ))] := by
    simp +decide [sample_events, pdSample, dfMean, dfA, listMean,
      List.range_succ, deriveC, deriveX, dictHas, dictGet, dictSet]
  exact (sample_events_frame_effect dfA 1 1 1 [0] [("E", 1)]
    (by decide) (by decide) hok).1 "E" (by decide)

end Measurement
